import Mathlib

/-!
Verification of the e-commerce data pipeline (`data_generator.py`,
`database_loader.py`, `queries.py`, `dashboard.py`, `main.py`) against its
natural-language specification.

Modelling conventions, used throughout:
* Randomness (`random.seed(42)` / `Faker.seed(42)` and every later draw by
  `random.choice`, `random.randint`, `random.sample`, `random.uniform`,
  `fake.date_between`, `fake.name`, ...) is modelled as an abstract oracle: a
  deterministic stream of natural numbers with a position.  Seeding fixes the
  stream and resets the position to 0; each primitive draw consumes one value.
  Opaque Faker strings (names, emails, catch phrases, review texts) are
  modelled as the raw drawn number; the eight fixed category names are
  modelled by their index 0..7.
* Dates are day numbers (`Nat`); the `%Y-%m-%d` date strings of the source
  compare lexicographically exactly as their day numbers compare.  `'today'`
  is passed around as an explicit `today : Nat`; `'-2y'` is `today - 730` and
  `'-1y'` is `today - 365`.
* Money is integer cents (`Nat`).  Every monetary value in the source is an
  exact multiple of a cent (`price` is `round(uniform(..), 2)`,
  `subtotal = round(price * quantity, 2)` with `price` at two decimals, and
  order totals are sums of such subtotals), so Python's `round(x, 2)` is the
  identity on the modelled values and cents arithmetic is exact.
* Fallible operations (`random.choice` on an empty list raises `IndexError`,
  a missing CSV raises `FileNotFoundError`, a constraint violation raises
  `IntegrityError`) are modelled with `Option` and explicit outcome flags.
-/

namespace ECommerce

/-- Deterministic stream of pseudo-random draws together with the current
position.  `random.seed(42)` (and `Faker.seed(42)`), executed once at import
time of `data_generator.py`, fix the stream and reset the position to 0;
every primitive draw consumes one value and advances the position. -/
structure Rand where
  stream : Nat → Nat
  pos : Nat

/-- Consume one draw from the stream. -/
def Rand.next (r : Rand) : Nat × Rand :=
  (r.stream r.pos, ⟨r.stream, r.pos + 1⟩)

/-- Draw an index below `n`, as the index underlying `random.choice` and
`random.randrange`. -/
def randBelow (n : Nat) (r : Rand) : Nat × Rand :=
  let (x, r1) := r.next
  (x % n, r1)

/-- Python `random.randint(a, b)`: a value in the inclusive range `[a, b]`. -/
def randInt (a b : Nat) (r : Rand) : Nat × Rand :=
  let (x, r1) := randBelow (b + 1 - a) r
  (a + x, r1)

/-- Faker `date_between(start_date=s, end_date=e)`: a day in `[s, e]`. -/
def dateBetween (s e : Nat) (r : Rand) : Nat × Rand :=
  randInt s e r

/-- Python `random.choice(xs)`: an element of `xs` at a drawn index; `none`
on the empty list, where `random.choice` raises `IndexError`. -/
def choice : List Nat → Rand → Option (Nat × Rand)
  | [], _ => none
  | x :: xs, r =>
    let (i, r1) := randBelow (x :: xs).length r
    some ((x :: xs).getD i x, r1)

/-- Python `random.sample(xs, k)`: `k` distinct positions of `xs` drawn
without replacement.  Callers in the source guarantee `k ≤ xs.length` (via
`min(num_items, len(product_ids))`); on a too-short list the model simply
stops early. -/
def sample : Nat → List Nat → Rand → List Nat × Rand
  | 0, _, r => ([], r)
  | _ + 1, [], r => ([], r)
  | k + 1, x :: xs, r =>
    let (i, r1) := randBelow (x :: xs).length r
    let chosen := (x :: xs).getD i x
    let rest := (x :: xs).eraseIdx i
    let (others, r2) := sample k rest r1
    (chosen :: others, r2)

/-- Row of the `users` table (`generate_users`).  `name` and `email` are the
opaque Faker strings modelled as raw draws; `signup_date` is a day number
from `fake.date_between('-2y', 'today')`. -/
structure User where
  id : Nat
  name : Nat
  email : Nat
  signup_date : Nat
deriving DecidableEq

/-- Row of the `products` table (`generate_products`).  `category` is the
index of the drawn entry of the fixed eight-element category list; `price`
is cents of `round(random.uniform(10.0, 500.0), 2)`, i.e. a draw in
`[1000, 50000]`. -/
structure Product where
  id : Nat
  name : Nat
  category : Nat
  price : Nat
deriving DecidableEq

/-- Row of the `orders` table (`generate_orders`). -/
structure Order where
  id : Nat
  user_id : Nat
  order_date : Nat
  total_amount : Nat
deriving DecidableEq

/-- Row of the `order_items` table (`generate_order_items`). -/
structure OrderItem where
  id : Nat
  order_id : Nat
  product_id : Nat
  quantity : Nat
  subtotal : Nat
deriving DecidableEq

/-- Row of the `reviews` table (`generate_reviews`). -/
structure Review where
  id : Nat
  user_id : Nat
  product_id : Nat
  rating : Nat
  review_text : Nat
  review_date : Nat
deriving DecidableEq

/-- Loop body of `generate_users`: ids run from 1; each iteration draws
`signup_date`, then `fake.name()`, then `fake.email()`. -/
def generateUsersAux (today : Nat) : Nat → Nat → Rand → List User × Rand
  | 0, _, r => ([], r)
  | n + 1, i, r =>
    let (sd, r1) := dateBetween (today - 730) today r
    let (nm, r2) := r1.next
    let (em, r3) := r2.next
    let (rest, r4) := generateUsersAux today n (i + 1) r3
    ({ id := i, name := nm, email := em, signup_date := sd } :: rest, r4)

/-- Model of `generate_users(num_users)`. -/
def generateUsers (today numUsers : Nat) (r : Rand) : List User × Rand :=
  generateUsersAux today numUsers 1 r

/-- Loop body of `generate_products`: each iteration draws
`fake.catch_phrase()`, then `random.choice(categories)` over the 8 fixed
categories, then the price `round(random.uniform(10.0, 500.0), 2)` in
cents. -/
def generateProductsAux : Nat → Nat → Rand → List Product × Rand
  | 0, _, r => ([], r)
  | n + 1, i, r =>
    let (nm, r1) := r.next
    let (c, r2) := randBelow 8 r1
    let (pr, r3) := randInt 1000 50000 r2
    let (rest, r4) := generateProductsAux n (i + 1) r3
    ({ id := i, name := nm, category := c, price := pr } :: rest, r4)

/-- Model of `generate_products(num_products)`. -/
def generateProducts (numProducts : Nat) (r : Rand) : List Product × Rand :=
  generateProductsAux numProducts 1 r

/-- Model of `users_df[users_df['id'] == user_id]['signup_date'].values[0]`:
the signup date of the first row carrying the given id (generated ids are
unique; `0` stands for the empty selection the source never hits, where
`.values[0]` would raise). -/
def lookupSignup (users : List User) (uid : Nat) : Nat :=
  match users.find? (fun u => u.id == uid) with
  | some u => u.signup_date
  | none => 0

/-- Loop body of `generate_orders`: each iteration draws a user id from the
precomputed `user_ids` list, a date in `[signup, today]`, and the provisional
total `round(random.uniform(25.0, 1000.0), 2)` in cents. -/
def generateOrdersAux (users : List User) (userIds : List Nat) (today : Nat) :
    Nat → Nat → Rand → Option (List Order × Rand)
  | 0, _, r => some ([], r)
  | n + 1, i, r =>
    match choice userIds r with
    | none => none
    | some (uid, r1) =>
      let (od, r2) := dateBetween (lookupSignup users uid) today r1
      let (t, r3) := randInt 2500 100000 r2
      match generateOrdersAux users userIds today n (i + 1) r3 with
      | none => none
      | some (rest, r4) =>
        some ({ id := i, user_id := uid, order_date := od,
                total_amount := t } :: rest, r4)

/-- Model of `generate_orders(users_df, num_orders)`; `user_ids` is computed
once before the loop, as in the source. -/
def generateOrders (users : List User) (today numOrders : Nat) (r : Rand) :
    Option (List Order × Rand) :=
  generateOrdersAux users (users.map User.id) today numOrders 1 r

/-- Model of `products_df[products_df['id'] == product_id].iloc[0]['price']`:
price of the first row with the given id. -/
def lookupPrice (products : List Product) (pid : Nat) : Nat :=
  match products.find? (fun p => p.id == pid) with
  | some p => p.price
  | none => 0

/-- Inner loop of `generate_order_items` over the sampled products of one
order: each item draws `quantity = random.randint(1, 5)` and has
`subtotal = round(price * quantity, 2)`, exact in cents; `item_id` is the
running counter. -/
def itemsForOrder (products : List Product) (oid : Nat) :
    List Nat → Nat → Rand → List OrderItem × Nat × Rand
  | [], itemId, r => ([], itemId, r)
  | pid :: rest, itemId, r =>
    let (q, r1) := randInt 1 5 r
    let st := lookupPrice products pid * q
    let (more, itemId1, r2) := itemsForOrder products oid rest (itemId + 1) r1
    ({ id := itemId, order_id := oid, product_id := pid, quantity := q,
       subtotal := st } :: more, itemId1, r2)

/-- Model of `orders_df.loc[orders_df['id'] == order['id'], 'total_amount'] =
total`: overwrite `total_amount` on every row whose id matches, leaving every
other field and every other row unchanged. -/
def setTotal (orders : List Order) (oid total : Nat) : List Order :=
  orders.map fun o => if o.id = oid then { o with total_amount := total } else o

/-- Accumulated `order_total` of one order: the sum of the subtotals that
were added item by item (`order_total += subtotal`); `round(order_total, 2)`
is the identity in cents. -/
def sumSubtotals (items : List OrderItem) : Nat :=
  (items.map OrderItem.subtotal).sum

/-- Outer loop of `generate_order_items` over the order rows.  `iterrows`
reads only `order['id']` from each row (the in-place `total_amount` updates
touch no field the loop reads), so the iteration is over the id sequence of
the incoming frame.  Each iteration draws `num_items = randint(1, 5)`,
samples `min(num_items, len(product_ids))` distinct products, emits their
items and overwrites the parent row's total with the accumulated sum. -/
def generateOrderItemsAux (products : List Product) (productIds : List Nat) :
    List Nat → List Order → Nat → Rand → List OrderItem × List Order × Rand
  | [], orders, _, r => ([], orders, r)
  | oid :: oids, orders, itemId, r =>
    let (k, r1) := randInt 1 5 r
    let (sel, r2) := sample (min k productIds.length) productIds r1
    let (its, itemId1, r3) := itemsForOrder products oid sel itemId r2
    let orders1 := setTotal orders oid (sumSubtotals its)
    let (restItems, orders2, r4) :=
      generateOrderItemsAux products productIds oids orders1 itemId1 r3
    (its ++ restItems, orders2, r4)

/-- Model of `generate_order_items(orders_df, products_df)`: returns the new
`order_items` frame together with the orders frame whose totals were
corrected in place. -/
def generateOrderItems (orders : List Order) (products : List Product) (r : Rand) :
    List OrderItem × List Order × Rand :=
  generateOrderItemsAux products (products.map Product.id) (orders.map Order.id)
    orders 1 r

/-- Value set of a column, as `set(df[col].unique())`: each value once.
Python's set iteration order is unspecified; `choice` reaches every member
either way. -/
def uniq : List Nat → List Nat
  | [] => []
  | x :: xs => x :: (uniq xs).filter (fun y => y != x)

/-- Model of `user_orders['order_date'].max()` on day numbers. -/
def maxOrderDate (userOrders : List Order) : Nat :=
  (userOrders.map Order.order_date).foldl max 0

/-- Loop body of `generate_reviews`: each iteration draws a user from
`ordered_users` and a product from `ordered_products` independently, filters
that user's orders, and dates the review from the latest such order — or
from the one-year fallback window when the user has no orders; it then draws
`rating = randint(1, 5)` and `fake.text(...)`. -/
def generateReviewsAux (orders : List Order) (orderedUsers orderedProducts : List Nat)
    (today : Nat) : Nat → Nat → Rand → Option (List Review × Rand)
  | 0, _, r => some ([], r)
  | n + 1, i, r =>
    match choice orderedUsers r with
    | none => none
    | some (uid, r1) =>
      match choice orderedProducts r1 with
      | none => none
      | some (pid, r2) =>
        let userOrders := orders.filter (fun o => o.user_id == uid)
        let (rd, r3) :=
          if userOrders.isEmpty then
            dateBetween (today - 365) today r2
          else
            dateBetween (maxOrderDate userOrders) today r2
        let (rat, r4) := randInt 1 5 r3
        let (txt, r5) := r4.next
        match generateReviewsAux orders orderedUsers orderedProducts today n (i + 1) r5 with
        | none => none
        | some (rest, r6) =>
          some ({ id := i, user_id := uid, product_id := pid, rating := rat,
                  review_text := txt, review_date := rd } :: rest, r6)

/-- Variant of the review loop with the one-year fallback branch removed:
the review date always comes from the latest order of the drawn user.  Used
to state that the fallback branch of the source is unreachable. -/
def generateReviewsStrictAux (orders : List Order) (orderedUsers orderedProducts : List Nat)
    (today : Nat) : Nat → Nat → Rand → Option (List Review × Rand)
  | 0, _, r => some ([], r)
  | n + 1, i, r =>
    match choice orderedUsers r with
    | none => none
    | some (uid, r1) =>
      match choice orderedProducts r1 with
      | none => none
      | some (pid, r2) =>
        let userOrders := orders.filter (fun o => o.user_id == uid)
        let (rd, r3) := dateBetween (maxOrderDate userOrders) today r2
        let (rat, r4) := randInt 1 5 r3
        let (txt, r5) := r4.next
        match generateReviewsStrictAux orders orderedUsers orderedProducts today n (i + 1) r5 with
        | none => none
        | some (rest, r6) =>
          some ({ id := i, user_id := uid, product_id := pid, rating := rat,
                  review_text := txt, review_date := rd } :: rest, r6)

/-- Model of `generate_reviews(users_df, products_df, orders_df,
order_items_df, num_reviews)`.  `ordered_products =
set(order_items_df['product_id'].unique())` and `ordered_users =
set(orders_df['user_id'].unique())`; the `user_ids` and `product_ids` lists
of the source are computed but never used afterwards. -/
def generateReviews (_users : List User) (_products : List Product)
    (orders : List Order) (orderItems : List OrderItem) (today numReviews : Nat)
    (r : Rand) : Option (List Review × Rand) :=
  generateReviewsAux orders (uniq (orders.map Order.user_id))
    (uniq (orderItems.map OrderItem.product_id)) today numReviews 1 r

/-- Fallback-free counterpart of `generateReviews`. -/
def generateReviewsStrict (_users : List User) (_products : List Product)
    (orders : List Order) (orderItems : List OrderItem) (today numReviews : Nat)
    (r : Rand) : Option (List Review × Rand) :=
  generateReviewsStrictAux orders (uniq (orders.map Order.user_id))
    (uniq (orderItems.map OrderItem.product_id)) today numReviews 1 r

/-- The five tables returned by `generate_data` (and serialized to the five
CSV flat files record for record). -/
structure Dataset where
  users : List User
  products : List Product
  orders : List Order
  order_items : List OrderItem
  reviews : List Review
deriving DecidableEq

/-- Model of `generate_data()`: users (100), products (50), orders (200),
order items (totals corrected in place), reviews (150), threading the
process-wide random state through; the same frames are saved to CSV and
returned. -/
def generateData (today : Nat) (r : Rand) : Option (Dataset × Rand) :=
  let users := (generateUsers today 100 r).1
  let r1 := (generateUsers today 100 r).2
  let products := (generateProducts 50 r1).1
  let r2 := (generateProducts 50 r1).2
  match generateOrders users today 200 r2 with
  | none => none
  | some (orders0, r3) =>
    let items := (generateOrderItems orders0 products r3).1
    let orders := (generateOrderItems orders0 products r3).2.1
    let r4 := (generateOrderItems orders0 products r3).2.2
    match generateReviews users products orders items today 150 r4 with
    | none => none
    | some (reviews, r5) =>
      some ({ users := users, products := products, orders := orders,
              order_items := items, reviews := reviews }, r5)

/-- Module import of `data_generator.py`: `Faker.seed(42)` and
`random.seed(42)` fix the process-wide stream and reset its position to 0.
This happens once per process, not once per `generate_data` call; the
dashboard's regenerate action re-enters `generate_data` in the same process
with the already-advanced state. -/
def moduleSeed (s : Nat → Nat) : Rand :=
  ⟨s, 0⟩

/-! ## Relational loader (`database_loader.py`) -/

/-- Parsed content of the five CSV flat files; `none` models a missing file,
on which `load_csv_to_table` raises `FileNotFoundError`. -/
structure Files where
  users : Option (List User)
  products : Option (List Product)
  orders : Option (List Order)
  order_items : Option (List OrderItem)
  reviews : Option (List Review)

/-- Content of the five tables of the SQLite store (a value of this type
stands for one on-disk database file). -/
structure Store where
  users : List User
  products : List Product
  orders : List Order
  order_items : List OrderItem
  reviews : List Review
deriving DecidableEq

/-- Fresh database right after `create_schema`: all five tables exist and
are empty. -/
def emptyStore : Store :=
  { users := [], products := [], orders := [], order_items := [], reviews := [] }

/-- SQLite enforces the declared `FOREIGN KEY` constraints only on
connections that execute `PRAGMA foreign_keys = ON`; `database_loader.py`
never executes it, so enforcement is off for the loading connection. -/
def foreignKeysOn : Bool := false

/-- Admission of one `users` row: `PRIMARY KEY` on `id`, `UNIQUE` on
`email` (`NOT NULL` is vacuous in the model: every field is present). -/
def userOk (tbl : List User) (u : User) : Bool :=
  tbl.all fun v => v.id != u.id && v.email != u.email

/-- Admission of one `products` row: `PRIMARY KEY` on `id`,
`CHECK(price > 0)`. -/
def productOk (tbl : List Product) (p : Product) : Bool :=
  decide (0 < p.price) && tbl.all fun v => v.id != p.id

/-- Admission of one `orders` row: `PRIMARY KEY` on `id`,
`CHECK(total_amount >= 0)` (vacuous over cents as naturals), and the
`user_id` foreign key — checked only when the pragma is on. -/
def orderOk (users : List User) (tbl : List Order) (o : Order) : Bool :=
  (tbl.all fun v => v.id != o.id) &&
    (!foreignKeysOn || users.any fun u => u.id == o.user_id)

/-- Admission of one `order_items` row: `PRIMARY KEY` on `id`,
`CHECK(quantity > 0)`, `CHECK(subtotal >= 0)` (vacuous over naturals), and
the `order_id` / `product_id` foreign keys — checked only when the pragma is
on. -/
def orderItemOk (orders : List Order) (products : List Product)
    (tbl : List OrderItem) (it : OrderItem) : Bool :=
  decide (0 < it.quantity) && (tbl.all fun v => v.id != it.id) &&
    (!foreignKeysOn ||
      ((orders.any fun o => o.id == it.order_id) &&
        products.any fun p => p.id == it.product_id))

/-- Admission of one `reviews` row: `PRIMARY KEY` on `id`,
`CHECK(rating >= 1 AND rating <= 5)`, and the `user_id` / `product_id`
foreign keys — checked only when the pragma is on. -/
def reviewOk (users : List User) (products : List Product)
    (tbl : List Review) (rv : Review) : Bool :=
  decide (1 ≤ rv.rating) && decide (rv.rating ≤ 5) &&
    (tbl.all fun v => v.id != rv.id) &&
    (!foreignKeysOn ||
      ((users.any fun u => u.id == rv.user_id) &&
        products.any fun p => p.id == rv.product_id))

/-- Bulk insert of `df.to_sql(...)` row by row into a table: the first row
SQLite rejects aborts the whole statement (`IntegrityError`), and pandas
rolls the table's transaction back, so a failed table contributes nothing. -/
def insertRows {ρ : Type} (ok : List ρ → ρ → Bool) (tbl : List ρ) :
    List ρ → Option (List ρ)
  | [] => some tbl
  | x :: xs => if ok tbl x then insertRows ok (tbl ++ [x]) xs else none

/-- Outcome of a `load_to_sqlite` call: either it returns normally or it
re-raises the exception of a failed step. -/
inductive Outcome where
  | success
  | failure
deriving DecidableEq

/-- Model of `load_to_sqlite(db_name)`.  The call first removes any existing
database file, then opens a fresh one, creates the schema (DDL, effective
immediately), and loads the five CSVs in dependency order; each
`load_csv_to_table` call clears the fresh table and bulk-inserts it, and
pandas `to_sql` commits every successfully inserted table.  It then builds
indexes (no effect on content) and commits.  On any exception the handler
rolls back whatever is uncommitted and re-raises; every table committed
before the failing step stays on disk.  The result is the on-disk store
after the call together with the outcome.  The prior store takes no part in
the result: it is unconditionally removed before anything else happens. -/
def loadToSqlite (_prior : Option Store) (files : Files) : Option Store × Outcome :=
  match files.users with
  | none => (some emptyStore, .failure)
  | some us =>
    match insertRows userOk [] us with
    | none => (some emptyStore, .failure)
    | some users =>
      let s1 : Store := { emptyStore with users := users }
      match files.products with
      | none => (some s1, .failure)
      | some ps =>
        match insertRows productOk [] ps with
        | none => (some s1, .failure)
        | some products =>
          let s2 : Store := { s1 with products := products }
          match files.orders with
          | none => (some s2, .failure)
          | some os =>
            match insertRows (orderOk users) [] os with
            | none => (some s2, .failure)
            | some orders =>
              let s3 : Store := { s2 with orders := orders }
              match files.order_items with
              | none => (some s3, .failure)
              | some is_ =>
                match insertRows (orderItemOk orders products) [] is_ with
                | none => (some s3, .failure)
                | some items =>
                  let s4 : Store := { s3 with order_items := items }
                  match files.reviews with
                  | none => (some s4, .failure)
                  | some rs =>
                    match insertRows (reviewOk users products) [] rs with
                    | none => (some s4, .failure)
                    | some reviews =>
                      (some { s4 with reviews := reviews }, .success)

/-- Referential integrity of a store: every cross-table reference
(`Order.user_id`, `OrderItem.order_id`, `OrderItem.product_id`,
`Review.user_id`, `Review.product_id`) resolves to an existing row. -/
def refIntegrity (s : Store) : Bool :=
  (s.orders.all fun o => s.users.any fun u => u.id == o.user_id) &&
    (s.order_items.all fun it =>
      (s.orders.any fun o => o.id == it.order_id) &&
        s.products.any fun p => p.id == it.product_id) &&
    (s.reviews.all fun rv =>
      (s.users.any fun u => u.id == rv.user_id) &&
        s.products.any fun p => p.id == rv.product_id)

/-! ## Analytics queries (`queries.py`) -/

/-- Result row of `get_product_sales_summary` (columns in query order):
`product_name`, `category`, `times_ordered`, `total_quantity_sold`,
`total_revenue`. -/
structure SalesRow where
  product_name : Nat
  category : Nat
  times_ordered : Nat
  total_quantity_sold : Nat
  total_revenue : Nat
deriving DecidableEq

/-- Join and group-by of `get_product_sales_summary`: one row per product
with at least one order item (INNER JOIN on `p.id = oi.product_id`, grouped
by `p.id, p.name, p.category`), counting item lines, summing quantities and
summing subtotals (`ROUND(SUM(..), 2)` is the identity in cents). -/
def productSalesRows (s : Store) : List SalesRow :=
  (s.products.filter fun p => s.order_items.any fun oi => oi.product_id == p.id).map
    fun p =>
      let its := s.order_items.filter fun oi => oi.product_id == p.id
      { product_name := p.name, category := p.category,
        times_ordered := its.length,
        total_quantity_sold := (its.map OrderItem.quantity).sum,
        total_revenue := (its.map OrderItem.subtotal).sum }

/-- Comparison of `ORDER BY total_revenue DESC`: the revenue of `a` is at
least that of `b`. -/
def revGe (a b : SalesRow) : Prop :=
  b.total_revenue ≤ a.total_revenue

instance : DecidableRel revGe :=
  fun a b => Nat.decLe b.total_revenue a.total_revenue

instance : IsTotal SalesRow revGe :=
  ⟨fun a b => Nat.le_total b.total_revenue a.total_revenue⟩

instance : IsTrans SalesRow revGe :=
  ⟨fun _ _ _ hab hbc => Nat.le_trans hbc hab⟩

/-- Model of `get_product_sales_summary`: the grouped rows, ordered by
revenue descending (SQLite fixes no order among revenue ties; insertion sort
is one valid implementation), with `LIMIT 10`. -/
def getProductSalesSummary (s : Store) : List SalesRow :=
  (List.insertionSort revGe (productSalesRows s)).take 10

/-- Strictly-descending comparison of consecutive `total_revenue` values, as
claimed for the product-revenue query. -/
def strictlyDescRevenue : List SalesRow → Bool
  | [] => true
  | [_] => true
  | a :: b :: t => decide (b.total_revenue < a.total_revenue) && strictlyDescRevenue (b :: t)

/-! ## Concrete instances used by counterexamples and witnesses -/

/-- Identity stream: draw `n` at position `n`. -/
def idStream : Nat → Nat := fun n => n

/-- Two users for the review counterexample. -/
def c1Users : List User :=
  [{ id := 1, name := 0, email := 0, signup_date := 0 },
   { id := 2, name := 1, email := 1, signup_date := 0 }]

/-- Two products for the review counterexample. -/
def c1Products : List Product :=
  [{ id := 1, name := 0, category := 0, price := 100 },
   { id := 2, name := 1, category := 0, price := 200 }]

/-- User 1 ordered only via order 1, user 2 only via order 2. -/
def c1Orders : List Order :=
  [{ id := 1, user_id := 1, order_date := 10, total_amount := 100 },
   { id := 2, user_id := 2, order_date := 10, total_amount := 200 }]

/-- Order 1 contains only product 1; order 2 contains only product 2.  So
user 1's order history contains product 1 only. -/
def c1Items : List OrderItem :=
  [{ id := 1, order_id := 1, product_id := 1, quantity := 1, subtotal := 100 },
   { id := 2, order_id := 2, product_id := 2, quantity := 1, subtotal := 200 }]

/-- Prior complete store for the loader-failure counterexample: the content
present on disk before `load_to_sqlite` is invoked. -/
def c2Prior : Store :=
  { users := [{ id := 7, name := 7, email := 7, signup_date := 7 }],
    products := [{ id := 7, name := 7, category := 7, price := 700 }],
    orders := [{ id := 7, user_id := 7, order_date := 7, total_amount := 700 }],
    order_items := [{ id := 7, order_id := 7, product_id := 7, quantity := 7, subtotal := 700 }],
    reviews := [{ id := 7, user_id := 7, product_id := 7, rating := 5, review_text := 7, review_date := 7 }] }

/-- Flat files whose first four tables are valid while `reviews.csv` is
missing, so the fifth load step raises `FileNotFoundError`. -/
def c2Files : Files :=
  { users := some [{ id := 1, name := 0, email := 0, signup_date := 0 }],
    products := some [{ id := 1, name := 0, category := 0, price := 100 }],
    orders := some [{ id := 1, user_id := 1, order_date := 0, total_amount := 100 }],
    order_items := some [{ id := 1, order_id := 1, product_id := 1, quantity := 1, subtotal := 100 }],
    reviews := none }

/-- The half-loaded store `load_to_sqlite` leaves on disk for `c2Files`:
the first four tables loaded, reviews empty. -/
def c2Half : Store :=
  { users := [{ id := 1, name := 0, email := 0, signup_date := 0 }],
    products := [{ id := 1, name := 0, category := 0, price := 100 }],
    orders := [{ id := 1, user_id := 1, order_date := 0, total_amount := 100 }],
    order_items := [{ id := 1, order_id := 1, product_id := 1, quantity := 1, subtotal := 100 }],
    reviews := [] }

/-- Flat files containing an order item whose `product_id` (999) resolves to
no product row. -/
def c5Files : Files :=
  { users := some [{ id := 1, name := 0, email := 0, signup_date := 0 }],
    products := some [{ id := 1, name := 0, category := 0, price := 100 }],
    orders := some [{ id := 1, user_id := 1, order_date := 0, total_amount := 100 }],
    order_items := some [{ id := 1, order_id := 1, product_id := 999, quantity := 1, subtotal := 100 }],
    reviews := some [] }

/-- The store the loader produces from `c5Files`: the dangling reference is
stored, not rejected. -/
def c5Loaded : Store :=
  { users := [{ id := 1, name := 0, email := 0, signup_date := 0 }],
    products := [{ id := 1, name := 0, category := 0, price := 100 }],
    orders := [{ id := 1, user_id := 1, order_date := 0, total_amount := 100 }],
    order_items := [{ id := 1, order_id := 1, product_id := 999, quantity := 1, subtotal := 100 }],
    reviews := [] }

/-- Store with two products of equal revenue (one item of subtotal 100
each), exhibiting a revenue tie in the product-sales query. -/
def c7Store : Store :=
  { users := [{ id := 1, name := 0, email := 0, signup_date := 0 }],
    products := [{ id := 1, name := 0, category := 0, price := 100 },
                 { id := 2, name := 1, category := 0, price := 100 }],
    orders := [{ id := 1, user_id := 1, order_date := 0, total_amount := 200 }],
    order_items := [{ id := 1, order_id := 1, product_id := 1, quantity := 1, subtotal := 100 },
                    { id := 2, order_id := 1, product_id := 2, quantity := 1, subtotal := 100 }],
    reviews := [] }

/-- One user and one order for the order-date witness. -/
def c8Users : List User :=
  [{ id := 1, name := 0, email := 0, signup_date := 50 }]

/-- Orders and items for the review-date witness: one user, one order on
day 10, containing product 1. -/
def c9Orders : List Order :=
  [{ id := 1, user_id := 3, order_date := 10, total_amount := 100 }]

/-- Items of `c9Orders`. -/
def c9Items : List OrderItem :=
  [{ id := 1, order_id := 1, product_id := 4, quantity := 1, subtotal := 100 }]

/-! ## Helper lemmas about the random primitives -/

theorem mem_getD_cons : ∀ (l : List Nat) (i d : Nat), l.getD i d ∈ d :: l := by
  intro l
  induction l with
  | nil => intro i d; simp [List.getD_nil]
  | cons x xs ih =>
    intro i d
    cases i with
    | zero => simp [List.getD_cons_zero]
    | succ j =>
      rw [List.getD_cons_succ]
      rcases List.mem_cons.mp (ih j d) with h | h
      · exact List.mem_cons.mpr (Or.inl h)
      · exact List.mem_cons.mpr (Or.inr (List.mem_cons.mpr (Or.inr h)))

theorem choice_eq_some {xs : List Nat} {r : Rand} {a : Nat} {r1 : Rand}
    (h : choice xs r = some (a, r1)) :
    a ∈ xs ∧ r1 = ⟨r.stream, r.pos + 1⟩ := by
  cases xs with
  | nil => simp [choice] at h
  | cons x t =>
    simp only [choice, randBelow, Rand.next, Option.some.injEq, Prod.mk.injEq] at h
    obtain ⟨ha, hr⟩ := h
    constructor
    · rcases List.mem_cons.mp (mem_getD_cons (x :: t) (r.stream r.pos % (x :: t).length) x) with
        h' | h'
      · rw [← ha, h']; exact List.mem_cons_self x t
      · rw [← ha]; exact h'
    · exact hr.symm

theorem choice_eq_none {xs : List Nat} {r : Rand} :
    choice xs r = none ↔ xs = [] := by
  cases xs with
  | nil => simp [choice]
  | cons x t => simp [choice, randBelow, Rand.next]

theorem choice_cons (x : Nat) (t : List Nat) (r : Rand) :
    choice (x :: t) r =
      some ((x :: t).getD (r.stream r.pos % (x :: t).length) x,
        ⟨r.stream, r.pos + 1⟩) := by
  simp [choice, randBelow, Rand.next]

theorem randInt_spec (a b : Nat) (r : Rand) :
    randInt a b r = (a + r.stream r.pos % (b + 1 - a), ⟨r.stream, r.pos + 1⟩) := by
  simp [randInt, randBelow, Rand.next]

theorem dateBetween_spec (s e : Nat) (r : Rand) :
    dateBetween s e r = (s + r.stream r.pos % (e + 1 - s), ⟨r.stream, r.pos + 1⟩) :=
  randInt_spec s e r

theorem le_dateBetween_fst (s e : Nat) (r : Rand) : s ≤ (dateBetween s e r).1 := by
  rw [dateBetween_spec]; exact Nat.le_add_right _ _

theorem one_le_randInt_one_fst (b : Nat) (r : Rand) : 1 ≤ (randInt 1 b r).1 := by
  rw [randInt_spec]; exact Nat.le_add_right _ _

theorem mem_uniq {a : Nat} : ∀ {l : List Nat}, a ∈ uniq l ↔ a ∈ l := by
  intro l
  induction l with
  | nil => simp [uniq]
  | cons x xs ih =>
    simp only [uniq, List.mem_cons, List.mem_filter, bne_iff_ne, ne_eq]
    constructor
    · rintro (h | ⟨h, _⟩)
      · exact Or.inl h
      · exact Or.inr (ih.mp h)
    · rintro (h | h)
      · exact Or.inl h
      · by_cases hax : a = x
        · exact Or.inl hax
        · exact Or.inr ⟨ih.mpr h, hax⟩

theorem uniq_ne_nil {l : List Nat} (h : l ≠ []) : uniq l ≠ [] := by
  cases l with
  | nil => exact absurd rfl h
  | cons x xs => simp [uniq]

/-! ## C8: order dates respect signup dates -/

/-- Every order produced by one run of the order loop has its date at or
after the signup date looked up for its own `user_id`. -/
theorem generateOrdersAux_date {users : List User} {userIds : List Nat} {today : Nat} :
    ∀ {n i : Nat} {r : Rand} {os : List Order} {r' : Rand},
      generateOrdersAux users userIds today n i r = some (os, r') →
      ∀ o ∈ os, lookupSignup users o.user_id ≤ o.order_date := by
  intro n
  induction n with
  | zero =>
    intro i r os r' h o ho
    simp only [generateOrdersAux, Option.some.injEq, Prod.mk.injEq] at h
    rw [← h.1] at ho
    exact absurd ho (List.not_mem_nil o)
  | succ m ih =>
    intro i r os r' h o ho
    rw [generateOrdersAux] at h
    cases hc : choice userIds r with
    | none => rw [hc] at h; exact absurd h (by simp)
    | some p =>
      obtain ⟨uid, r1⟩ := p
      rw [hc] at h
      simp only [dateBetween_spec, randInt_spec] at h
      cases hrec : generateOrdersAux users userIds today m (i + 1)
          ⟨r1.stream, r1.pos + 1 + 1⟩ with
      | none => rw [hrec] at h; exact absurd h (by simp)
      | some q =>
        obtain ⟨rest, r4⟩ := q
        rw [hrec] at h
        simp only [Option.some.injEq, Prod.mk.injEq] at h
        rw [← h.1] at ho
        rcases List.mem_cons.mp ho with h' | h'
        · rw [h']; exact Nat.le_add_right _ _
        · exact ih hrec o h'

/-- C8: for every order produced by `generate_orders` over any non-empty
users table (non-emptiness is what makes the result a `some`), the order's
`order_date` is at or after the `signup_date` of the user identified by the
order's `user_id` (the first users row with that id, as the source's
`values[0]` lookup selects). -/
theorem c8_order_date_after_signup {users : List User} {today numOrders : Nat}
    {r : Rand} {os : List Order} {r' : Rand}
    (h : generateOrders users today numOrders r = some (os, r')) :
    ∀ o ∈ os, lookupSignup users o.user_id ≤ o.order_date :=
  generateOrdersAux_date h

/-- Witness for C8 at a concrete run: one user signed up on day 50, the one
order drawn with the identity stream lands on day 51. -/
theorem c8_witness :
    lookupSignup c8Users 1 ≤ 51 :=
  @c8_order_date_after_signup c8Users 60 1 (moduleSeed idStream)
    [{ id := 1, user_id := 1, order_date := 51, total_amount := 2502 }]
    ⟨idStream, 3⟩ rfl
    { id := 1, user_id := 1, order_date := 51, total_amount := 2502 }
    (List.mem_singleton_self _)

/-! ## C1 and C9: review generation -/

theorem filter_user_ne_nil {orders : List Order} {uid : Nat}
    (h : uid ∈ orders.map Order.user_id) :
    (orders.filter fun o => o.user_id == uid).isEmpty = false := by
  obtain ⟨o, ho, heq⟩ := List.mem_map.mp h
  have hmem : o ∈ orders.filter fun o => o.user_id == uid :=
    List.mem_filter.mpr ⟨ho, by simp [heq]⟩
  cases hf : orders.filter fun o => o.user_id == uid with
  | nil => rw [hf] at hmem; exact absurd hmem (List.not_mem_nil o)
  | cons y ys => rfl

/-- Every review the loop emits draws its `user_id` from `orderedUsers` and
its `product_id` from `orderedProducts` — and from nowhere else. -/
theorem generateReviewsAux_mem {orders : List Order} {ou op : List Nat} {today : Nat} :
    ∀ {n i : Nat} {r : Rand} {rs : List Review} {r' : Rand},
      generateReviewsAux orders ou op today n i r = some (rs, r') →
      ∀ rv ∈ rs, rv.user_id ∈ ou ∧ rv.product_id ∈ op := by
  intro n
  induction n with
  | zero =>
    intro i r rs r' h rv hrv
    simp only [generateReviewsAux, Option.some.injEq, Prod.mk.injEq] at h
    rw [← h.1] at hrv
    exact absurd hrv (List.not_mem_nil rv)
  | succ m ih =>
    intro i r rs r' h rv hrv
    rw [generateReviewsAux] at h
    cases hc : choice ou r with
    | none => rw [hc] at h; exact absurd h (by simp)
    | some p =>
      obtain ⟨uid, r1⟩ := p
      rw [hc] at h
      dsimp only at h
      cases hcp : choice op r1 with
      | none => rw [hcp] at h; exact absurd h (by simp)
      | some q =>
        obtain ⟨pid, r2⟩ := q
        rw [hcp] at h
        dsimp only at h
        by_cases hemp : (orders.filter fun o => o.user_id == uid).isEmpty = true
        · rw [if_pos hemp] at h
          simp only [dateBetween_spec, randInt_spec, Rand.next] at h
          cases hrec : generateReviewsAux orders ou op today m (i + 1)
              ⟨r2.stream, r2.pos + 1 + 1 + 1⟩ with
          | none => rw [hrec] at h; exact absurd h (by simp)
          | some q2 =>
            obtain ⟨rest, r6⟩ := q2
            rw [hrec] at h
            simp only [Option.some.injEq, Prod.mk.injEq] at h
            rw [← h.1] at hrv
            rcases List.mem_cons.mp hrv with h' | h'
            · rw [h']
              exact ⟨(choice_eq_some hc).1, (choice_eq_some hcp).1⟩
            · exact ih hrec rv h'
        · rw [if_neg hemp] at h
          simp only [dateBetween_spec, randInt_spec, Rand.next] at h
          cases hrec : generateReviewsAux orders ou op today m (i + 1)
              ⟨r2.stream, r2.pos + 1 + 1 + 1⟩ with
          | none => rw [hrec] at h; exact absurd h (by simp)
          | some q2 =>
            obtain ⟨rest, r6⟩ := q2
            rw [hrec] at h
            simp only [Option.some.injEq, Prod.mk.injEq] at h
            rw [← h.1] at hrv
            rcases List.mem_cons.mp hrv with h' | h'
            · rw [h']
              exact ⟨(choice_eq_some hc).1, (choice_eq_some hcp).1⟩
            · exact ih hrec rv h'

/-- C1 (amended): every review produced by `generate_reviews` references a
user that has at least one order and a product that was ordered by
*someone* — but not necessarily a product of the reviewing user's own order
history, since the two draws are independent. -/
theorem c1_reviews_reference_ordered_entities {users : List User}
    {products : List Product} {orders : List Order} {items : List OrderItem}
    {today n : Nat} {r : Rand} {rs : List Review} {r' : Rand}
    (h : generateReviews users products orders items today n r = some (rs, r')) :
    ∀ rv ∈ rs, (∃ o ∈ orders, o.user_id = rv.user_id) ∧
      (∃ it ∈ items, it.product_id = rv.product_id) := by
  intro rv hrv
  have hm := generateReviewsAux_mem h rv hrv
  constructor
  · obtain ⟨o, ho, heq⟩ := List.mem_map.mp (mem_uniq.mp hm.1)
    exact ⟨o, ho, heq⟩
  · obtain ⟨it, hit, heq⟩ := List.mem_map.mp (mem_uniq.mp hm.2)
    exact ⟨it, hit, heq⟩

/-- Witness for C1's amended statement at a concrete run: the review of
user 1 on product 2 references a user with an order and a product ordered by
someone (namely user 2). -/
theorem c1_witness :
    (∃ o ∈ c1Orders, o.user_id = 1) ∧ (∃ it ∈ c1Items, it.product_id = 2) :=
  @c1_reviews_reference_ordered_entities c1Users c1Products c1Orders c1Items 20 1
    (moduleSeed idStream)
    [{ id := 1, user_id := 1, product_id := 2, rating := 4,
       review_text := 4, review_date := 12 }]
    ⟨idStream, 5⟩ rfl
    { id := 1, user_id := 1, product_id := 2, rating := 4,
      review_text := 4, review_date := 12 }
    (List.mem_singleton_self _)

/-- C1, as stated, is false: with the identity stream, `generate_reviews`
over `c1Orders`/`c1Items` (user 1 only ever ordered product 1) emits a
review by user 1 of product 2. -/
theorem c1_counterexample :
    ¬ (∀ (rs : List Review) (r' : Rand),
        generateReviews c1Users c1Products c1Orders c1Items 20 1 (moduleSeed idStream) =
          some (rs, r') →
        ∀ rv ∈ rs, ∃ it ∈ c1Items, ∃ o ∈ c1Orders,
          it.order_id = o.id ∧ o.user_id = rv.user_id ∧
            it.product_id = rv.product_id) := by
  intro h
  have h2 := h [{ id := 1, user_id := 1, product_id := 2, rating := 4,
                  review_text := 4, review_date := 12 }] ⟨idStream, 5⟩ rfl
  have h3 := h2 { id := 1, user_id := 1, product_id := 2, rating := 4,
                  review_text := 4, review_date := 12 } (by simp)
  revert h3
  decide

/-- Bound used by C9: whatever branch dates a review, its date is at least
the maximum order date of the drawn user's orders (`maxOrderDate` of the
empty selection is 0, so the bound is vacuous exactly when the fallback
branch fires). -/
theorem generateReviewsAux_dates {orders : List Order} {ou op : List Nat} {today : Nat} :
    ∀ {n i : Nat} {r : Rand} {rs : List Review} {r' : Rand},
      generateReviewsAux orders ou op today n i r = some (rs, r') →
      ∀ rv ∈ rs,
        maxOrderDate (orders.filter fun o => o.user_id == rv.user_id) ≤ rv.review_date := by
  intro n
  induction n with
  | zero =>
    intro i r rs r' h rv hrv
    simp only [generateReviewsAux, Option.some.injEq, Prod.mk.injEq] at h
    rw [← h.1] at hrv
    exact absurd hrv (List.not_mem_nil rv)
  | succ m ih =>
    intro i r rs r' h rv hrv
    rw [generateReviewsAux] at h
    cases hc : choice ou r with
    | none => rw [hc] at h; exact absurd h (by simp)
    | some p =>
      obtain ⟨uid, r1⟩ := p
      rw [hc] at h
      dsimp only at h
      cases hcp : choice op r1 with
      | none => rw [hcp] at h; exact absurd h (by simp)
      | some q =>
        obtain ⟨pid, r2⟩ := q
        rw [hcp] at h
        dsimp only at h
        by_cases hemp : (orders.filter fun o => o.user_id == uid).isEmpty = true
        · rw [if_pos hemp] at h
          simp only [dateBetween_spec, randInt_spec, Rand.next] at h
          cases hrec : generateReviewsAux orders ou op today m (i + 1)
              ⟨r2.stream, r2.pos + 1 + 1 + 1⟩ with
          | none => rw [hrec] at h; exact absurd h (by simp)
          | some q2 =>
            obtain ⟨rest, r6⟩ := q2
            rw [hrec] at h
            simp only [Option.some.injEq, Prod.mk.injEq] at h
            rw [← h.1] at hrv
            rcases List.mem_cons.mp hrv with h' | h'
            · rw [h']
              have hnil : (orders.filter fun o => o.user_id == uid) = [] :=
                List.isEmpty_iff.mp hemp
              simp [hnil, maxOrderDate]
            · exact ih hrec rv h'
        · rw [if_neg hemp] at h
          simp only [dateBetween_spec, randInt_spec, Rand.next] at h
          cases hrec : generateReviewsAux orders ou op today m (i + 1)
              ⟨r2.stream, r2.pos + 1 + 1 + 1⟩ with
          | none => rw [hrec] at h; exact absurd h (by simp)
          | some q2 =>
            obtain ⟨rest, r6⟩ := q2
            rw [hrec] at h
            simp only [Option.some.injEq, Prod.mk.injEq] at h
            rw [← h.1] at hrv
            rcases List.mem_cons.mp hrv with h' | h'
            · rw [h']
              exact Nat.le_add_right _ _
            · exact ih hrec rv h'

/-- The fallback branch never fires when the drawn users come from the
orders themselves: the loop then coincides with its fallback-free variant. -/
theorem generateReviewsAux_eq_strict {orders : List Order} {ou op : List Nat}
    {today : Nat} (hou : ∀ u ∈ ou, u ∈ orders.map Order.user_id) :
    ∀ (n i : Nat) (r : Rand),
      generateReviewsAux orders ou op today n i r =
        generateReviewsStrictAux orders ou op today n i r := by
  intro n
  induction n with
  | zero => intro i r; rfl
  | succ m ih =>
    intro i r
    rw [generateReviewsAux, generateReviewsStrictAux]
    cases hc : choice ou r with
    | none => rfl
    | some p =>
      obtain ⟨uid, r1⟩ := p
      dsimp only
      cases hcp : choice op r1 with
      | none => rfl
      | some q =>
        obtain ⟨pid, r2⟩ := q
        dsimp only
        have hemp := filter_user_ne_nil (hou uid (choice_eq_some hc).1)
        rw [if_neg (by rw [hemp]; exact Bool.false_ne_true)]
        rw [ih]

/-- C9: the one-year-lookback fallback of `generate_reviews` is dead code —
the function equals its fallback-free variant — and consequently every
generated review is dated at or after the latest order date of its
reviewer. -/
theorem c9_fallback_unreachable_review_dates (users : List User)
    (products : List Product) (orders : List Order) (items : List OrderItem)
    (today n : Nat) (r : Rand) :
    generateReviews users products orders items today n r =
      generateReviewsStrict users products orders items today n r ∧
    (∀ rs r', generateReviews users products orders items today n r = some (rs, r') →
      ∀ rv ∈ rs,
        maxOrderDate (orders.filter fun o => o.user_id == rv.user_id) ≤ rv.review_date) := by
  constructor
  · exact generateReviewsAux_eq_strict (fun u hu => mem_uniq.mp hu) n 1 r
  · intro rs r' h rv hrv
    exact generateReviewsAux_dates h rv hrv

/-- Witness for C9 at a concrete run: the single review of user 3 lands on
day 12, at or after that user's latest order date 10. -/
theorem c9_witness :
    maxOrderDate (c9Orders.filter fun o => o.user_id == 3) ≤ 12 :=
  (c9_fallback_unreachable_review_dates [] [] c9Orders c9Items 20 1
      (moduleSeed idStream)).2
    [{ id := 1, user_id := 3, product_id := 4, rating := 4,
       review_text := 4, review_date := 12 }] ⟨idStream, 5⟩ rfl
    { id := 1, user_id := 3, product_id := 4, rating := 4,
      review_text := 4, review_date := 12 }
    (List.mem_singleton_self _)

/-! ## C10 and C4: order-item generation -/

theorem itemsForOrder_cons (products : List Product) (oid pid : Nat) (rest : List Nat)
    (itemId : Nat) (r : Rand) :
    itemsForOrder products oid (pid :: rest) itemId r =
      (let q := (randInt 1 5 r).1
       let r1 := (randInt 1 5 r).2
       let more := itemsForOrder products oid rest (itemId + 1) r1
       ({ id := itemId, order_id := oid, product_id := pid, quantity := q,
          subtotal := lookupPrice products pid * q } :: more.1, more.2.1, more.2.2)) :=
  rfl

theorem generateOrderItemsAux_cons (products : List Product) (productIds : List Nat)
    (oid : Nat) (oids : List Nat) (orders : List Order) (itemId : Nat) (r : Rand) :
    generateOrderItemsAux products productIds (oid :: oids) orders itemId r =
      (let k := (randInt 1 5 r).1
       let r1 := (randInt 1 5 r).2
       let sel := (sample (min k productIds.length) productIds r1).1
       let r2 := (sample (min k productIds.length) productIds r1).2
       let its := (itemsForOrder products oid sel itemId r2).1
       let itemId1 := (itemsForOrder products oid sel itemId r2).2.1
       let r3 := (itemsForOrder products oid sel itemId r2).2.2
       let rest := generateOrderItemsAux products productIds oids
         (setTotal orders oid (sumSubtotals its)) itemId1 r3
       (its ++ rest.1, rest.2.1, rest.2.2)) :=
  rfl

theorem setTotal_map (f : Order → Nat)
    (hf : ∀ (o : Order) (t : Nat), f { o with total_amount := t } = f o) :
    ∀ (os : List Order) (oid t : Nat), (setTotal os oid t).map f = os.map f := by
  intro os oid t
  induction os with
  | nil => rfl
  | cons o os ih =>
    simp only [setTotal, List.map_cons] at ih ⊢
    by_cases ho : o.id = oid
    · rw [if_pos ho, hf, ih]
    · rw [if_neg ho, ih]

theorem generateOrderItemsAux_map (products : List Product) (productIds : List Nat)
    (f : Order → Nat)
    (hf : ∀ (o : Order) (t : Nat), f { o with total_amount := t } = f o) :
    ∀ (oids : List Nat) (os : List Order) (itemId : Nat) (r : Rand),
      ((generateOrderItemsAux products productIds oids os itemId r).2.1).map f =
        os.map f := by
  intro oids
  induction oids with
  | nil => intro os itemId r; rfl
  | cons oid oids ih =>
    intro os itemId r
    rw [generateOrderItemsAux_cons]
    dsimp only
    rw [ih, setTotal_map f hf]

theorem itemsForOrder_order_id (products : List Product) (oid : Nat) :
    ∀ (pids : List Nat) (itemId : Nat) (r : Rand),
      ∀ it ∈ (itemsForOrder products oid pids itemId r).1, it.order_id = oid := by
  intro pids
  induction pids with
  | nil => intro itemId r it hit; exact absurd hit (List.not_mem_nil it)
  | cons pid rest ih =>
    intro itemId r it hit
    rw [itemsForOrder_cons] at hit
    dsimp only at hit
    rcases List.mem_cons.mp hit with h | h
    · rw [h]
    · exact ih _ _ it h

theorem generateOrderItemsAux_item_mem (products : List Product) (productIds : List Nat) :
    ∀ (oids : List Nat) (os : List Order) (itemId : Nat) (r : Rand),
      ∀ it ∈ (generateOrderItemsAux products productIds oids os itemId r).1,
        it.order_id ∈ oids := by
  intro oids
  induction oids with
  | nil => intro os itemId r it hit; exact absurd hit (List.not_mem_nil it)
  | cons oid oids ih =>
    intro os itemId r it hit
    rw [generateOrderItemsAux_cons] at hit
    dsimp only at hit
    rcases List.mem_append.mp hit with h | h
    · rw [itemsForOrder_order_id products oid _ _ _ it h]
      exact List.mem_cons_self oid oids
    · exact List.mem_cons.mpr (Or.inr (ih _ _ _ it h))

theorem setTotal_mem {os : List Order} {oid t : Nat} {o : Order}
    (h : o ∈ setTotal os oid t) :
    (o.id = oid → o.total_amount = t) ∧ (o.id ≠ oid → o ∈ os) := by
  obtain ⟨o0, ho0, heq⟩ := List.mem_map.mp h
  by_cases h0 : o0.id = oid
  · rw [if_pos h0] at heq
    refine ⟨fun _ => ?_, fun hne => absurd ?_ hne⟩
    · rw [← heq]
    · rw [← heq]; exact h0
  · rw [if_neg h0] at heq
    refine ⟨fun hid => absurd ?_ h0, fun _ => heq ▸ ho0⟩
    rw [heq]; exact hid

theorem generateOrderItemsAux_mem_out (products : List Product) (productIds : List Nat) :
    ∀ (oids : List Nat) (os : List Order) (itemId : Nat) (r : Rand) (o : Order),
      o ∈ (generateOrderItemsAux products productIds oids os itemId r).2.1 →
      o.id ∉ oids → o ∈ os := by
  intro oids
  induction oids with
  | nil => intro os itemId r o ho _; exact ho
  | cons oid oids ih =>
    intro os itemId r o ho hnot
    rw [generateOrderItemsAux_cons] at ho
    dsimp only at ho
    have h1 : o.id ∉ oids := fun hmem => hnot (List.mem_cons.mpr (Or.inr hmem))
    have h2 : o.id ≠ oid := fun heq => hnot (List.mem_cons.mpr (Or.inl heq))
    exact (setTotal_mem (ih _ _ _ o ho h1)).2 h2

theorem sumSubtotals_append (l1 l2 : List OrderItem) :
    sumSubtotals (l1 ++ l2) = sumSubtotals l1 + sumSubtotals l2 := by
  simp [sumSubtotals]

/-- Core of C4: with pairwise distinct order ids (as `generate_orders`
produces them), the corrected total of every order equals the sum of the
subtotals of exactly its own items. -/
theorem generateOrderItemsAux_totals (products : List Product) (productIds : List Nat) :
    ∀ (oids : List Nat) (os : List Order) (itemId : Nat) (r : Rand),
      oids.Nodup →
      ∀ o ∈ (generateOrderItemsAux products productIds oids os itemId r).2.1,
        o.id ∈ oids →
        o.total_amount =
          sumSubtotals
            ((generateOrderItemsAux products productIds oids os itemId r).1.filter
              fun it => it.order_id == o.id) := by
  intro oids
  induction oids with
  | nil => intro os itemId r _ o _ hid; exact absurd hid (List.not_mem_nil _)
  | cons oid oids ih =>
    intro os itemId r hnd o ho hid
    have hodd : oid ∉ oids := (List.nodup_cons.mp hnd).1
    have hnd' : oids.Nodup := (List.nodup_cons.mp hnd).2
    rw [generateOrderItemsAux_cons] at ho ⊢
    dsimp only at ho ⊢
    rw [List.filter_append]
    rcases List.mem_cons.mp hid with hcase | hcase
    · have hnotin : o.id ∉ oids := by rw [hcase]; exact hodd
      have hmem := generateOrderItemsAux_mem_out products productIds oids _ _ _ o ho hnotin
      have htot := (setTotal_mem hmem).1 hcase
      have hkeep :
          List.filter (fun it => it.order_id == o.id)
              (itemsForOrder products oid
                (sample (min (randInt 1 5 r).1 productIds.length) productIds
                  (randInt 1 5 r).2).1 itemId
                (sample (min (randInt 1 5 r).1 productIds.length) productIds
                  (randInt 1 5 r).2).2).1 =
            (itemsForOrder products oid
                (sample (min (randInt 1 5 r).1 productIds.length) productIds
                  (randInt 1 5 r).2).1 itemId
                (sample (min (randInt 1 5 r).1 productIds.length) productIds
                  (randInt 1 5 r).2).2).1 := by
        apply List.filter_eq_self.mpr
        intro it hit
        rw [itemsForOrder_order_id products oid _ _ _ it hit, hcase]
        exact beq_self_eq_true oid
      have hdrop :
          ∀ {l : List OrderItem}, (∀ it ∈ l, it.order_id ∈ oids) →
            List.filter (fun it => it.order_id == o.id) l = [] := by
        intro l hl
        apply List.filter_eq_nil_iff.mpr
        intro it hit
        have := hl it hit
        simp only [beq_iff_eq]
        intro heq
        rw [heq, hcase] at this
        exact hodd this
      rw [hkeep, hdrop (fun it hit => generateOrderItemsAux_item_mem products productIds
        oids _ _ _ it hit)]
      rw [List.append_nil, htot]
    · have hne : o.id ≠ oid := fun heq => hodd (heq ▸ hcase)
      have hrec := ih _ _ _ hnd' o ho hcase
      have hdropits :
          List.filter (fun it => it.order_id == o.id)
              (itemsForOrder products oid
                (sample (min (randInt 1 5 r).1 productIds.length) productIds
                  (randInt 1 5 r).2).1 itemId
                (sample (min (randInt 1 5 r).1 productIds.length) productIds
                  (randInt 1 5 r).2).2).1 = [] := by
        apply List.filter_eq_nil_iff.mpr
        intro it hit
        rw [itemsForOrder_order_id products oid _ _ _ it hit]
        simp only [beq_iff_eq]
        exact fun heq => hne heq.symm
      rw [hdropits, List.nil_append]
      exact hrec

/-- C10: `generate_order_items` touches only the `total_amount` column of the
orders frame it corrects: the `id`, `user_id` and `order_date` columns and
the number of rows are unchanged between input and output. -/
theorem c10_order_items_frame (orders : List Order) (products : List Product) (r : Rand) :
    ((generateOrderItems orders products r).2.1).map Order.id = orders.map Order.id ∧
    ((generateOrderItems orders products r).2.1).map Order.user_id =
      orders.map Order.user_id ∧
    ((generateOrderItems orders products r).2.1).map Order.order_date =
      orders.map Order.order_date ∧
    ((generateOrderItems orders products r).2.1).length = orders.length := by
  refine ⟨?_, ?_, ?_, ?_⟩
  · exact generateOrderItemsAux_map products (products.map Product.id) Order.id
      (fun _ _ => rfl) (orders.map Order.id) orders 1 r
  · exact generateOrderItemsAux_map products (products.map Product.id) Order.user_id
      (fun _ _ => rfl) (orders.map Order.id) orders 1 r
  · exact generateOrderItemsAux_map products (products.map Product.id) Order.order_date
      (fun _ _ => rfl) (orders.map Order.id) orders 1 r
  · have h := generateOrderItemsAux_map products (products.map Product.id) Order.id
      (fun _ _ => rfl) (orders.map Order.id) orders 1 r
    have := congrArg List.length h
    simpa using this

/-- Ids of generated orders are consecutive from the loop counter. -/
theorem generateOrdersAux_ids {users : List User} {userIds : List Nat} {today : Nat} :
    ∀ {n i : Nat} {r : Rand} {os : List Order} {r' : Rand},
      generateOrdersAux users userIds today n i r = some (os, r') →
      os.map Order.id = List.range' i n := by
  intro n
  induction n with
  | zero =>
    intro i r os r' h
    simp only [generateOrdersAux, Option.some.injEq, Prod.mk.injEq] at h
    rw [← h.1]
    rfl
  | succ m ih =>
    intro i r os r' h
    rw [generateOrdersAux] at h
    cases hc : choice userIds r with
    | none => rw [hc] at h; exact absurd h (by simp)
    | some p =>
      obtain ⟨uid, r1⟩ := p
      rw [hc] at h
      simp only [dateBetween_spec, randInt_spec] at h
      cases hrec : generateOrdersAux users userIds today m (i + 1)
          ⟨r1.stream, r1.pos + 1 + 1⟩ with
      | none => rw [hrec] at h; exact absurd h (by simp)
      | some q =>
        obtain ⟨rest, r4⟩ := q
        rw [hrec] at h
        simp only [Option.some.injEq, Prod.mk.injEq] at h
        rw [← h.1, List.map_cons, ih hrec, List.range'_succ]

/-- C4: in every dataset `generate_data` returns, each order's
`total_amount` equals the (in cents exact, hence rounding-invariant) sum of
the subtotals of exactly the order items carrying its id; the provisional
random total never survives the correction pass. -/
theorem c4_order_totals_match_items {today : Nat} {r : Rand} {d : Dataset} {r' : Rand}
    (h : generateData today r = some (d, r')) :
    ∀ o ∈ d.orders, o.total_amount =
      sumSubtotals (d.order_items.filter fun it => it.order_id == o.id) := by
  intro o ho
  unfold generateData at h
  dsimp only at h
  cases horders : generateOrders (generateUsers today 100 r).1 today 200
      (generateProducts 50 (generateUsers today 100 r).2).2 with
  | none => rw [horders] at h; exact absurd h (by simp)
  | some p =>
    obtain ⟨orders0, r3⟩ := p
    rw [horders] at h
    dsimp only at h
    cases hrev : generateReviews (generateUsers today 100 r).1
        (generateProducts 50 (generateUsers today 100 r).2).1
        (generateOrderItems orders0 (generateProducts 50 (generateUsers today 100 r).2).1 r3).2.1
        (generateOrderItems orders0 (generateProducts 50 (generateUsers today 100 r).2).1 r3).1
        today 150
        (generateOrderItems orders0 (generateProducts 50 (generateUsers today 100 r).2).1 r3).2.2 with
    | none => rw [hrev] at h; exact absurd h (by simp)
    | some q =>
      obtain ⟨reviews, r5⟩ := q
      rw [hrev] at h
      simp only [Option.some.injEq, Prod.mk.injEq] at h
      have hd := h.1
      have hids : orders0.map Order.id = List.range' 1 200 :=
        generateOrdersAux_ids horders
      have hnd : (orders0.map Order.id).Nodup := by
        rw [hids]; exact List.nodup_range' 1 200
      rw [← hd] at ho ⊢
      dsimp only at ho ⊢
      rw [generateOrderItems] at ho ⊢
      have hoid : o.id ∈ orders0.map Order.id := by
        have hmap := generateOrderItemsAux_map
          (generateProducts 50 (generateUsers today 100 r).2).1
          ((generateProducts 50 (generateUsers today 100 r).2).1.map Product.id)
          Order.id (fun _ _ => rfl) (orders0.map Order.id) orders0 1 r3
        rw [← hmap]
        exact List.mem_map_of_mem Order.id ho
      exact generateOrderItemsAux_totals
        (generateProducts 50 (generateUsers today 100 r).2).1
        ((generateProducts 50 (generateUsers today 100 r).2).1.map Product.id)
        (orders0.map Order.id) orders0 1 r3 hnd o ho hoid

/-! ## C3: determinism and the same-process second run -/

theorem randBelow_spec (n : Nat) (r : Rand) :
    randBelow n r = (r.stream r.pos % n, ⟨r.stream, r.pos + 1⟩) :=
  rfl

theorem generateUsersAux_cons (today n i : Nat) (r : Rand) :
    generateUsersAux today (n + 1) i r =
      (let sd := (dateBetween (today - 730) today r).1
       let r1 := (dateBetween (today - 730) today r).2
       let nm := r1.next.1
       let r2 := r1.next.2
       let em := r2.next.1
       let r3 := r2.next.2
       let rest := generateUsersAux today n (i + 1) r3
       ({ id := i, name := nm, email := em, signup_date := sd } :: rest.1, rest.2)) :=
  rfl

theorem generateProductsAux_cons (n i : Nat) (r : Rand) :
    generateProductsAux (n + 1) i r =
      (let nm := r.next.1
       let r1 := r.next.2
       let c := (randBelow 8 r1).1
       let r2 := (randBelow 8 r1).2
       let pr := (randInt 1000 50000 r2).1
       let r3 := (randInt 1000 50000 r2).2
       let rest := generateProductsAux n (i + 1) r3
       ({ id := i, name := nm, category := c, price := pr } :: rest.1, rest.2)) :=
  rfl

theorem sample_cons (k x : Nat) (xs : List Nat) (r : Rand) :
    sample (k + 1) (x :: xs) r =
      (let i := (randBelow (x :: xs).length r).1
       let r1 := (randBelow (x :: xs).length r).2
       let q := sample k ((x :: xs).eraseIdx i) r1
       ((x :: xs).getD i x :: q.1, q.2)) :=
  rfl

theorem generateUsersAux_rand (today : Nat) :
    ∀ (n i : Nat) (r : Rand),
      (generateUsersAux today n i r).2 = ⟨r.stream, r.pos + 3 * n⟩ := by
  intro n
  induction n with
  | zero =>
    intro i r
    show r = ⟨r.stream, r.pos + 3 * 0⟩
    cases r; simp
  | succ m ih =>
    intro i r
    rw [generateUsersAux_cons]
    dsimp only
    simp only [dateBetween_spec, Rand.next]
    rw [ih]
    simp only [Rand.mk.injEq]
    exact ⟨by simp, by omega⟩

theorem generateProductsAux_rand :
    ∀ (n i : Nat) (r : Rand),
      (generateProductsAux n i r).2 = ⟨r.stream, r.pos + 3 * n⟩ := by
  intro n
  induction n with
  | zero =>
    intro i r
    show r = ⟨r.stream, r.pos + 3 * 0⟩
    cases r; simp
  | succ m ih =>
    intro i r
    rw [generateProductsAux_cons]
    dsimp only
    simp only [randBelow_spec, randInt_spec, Rand.next]
    rw [ih]
    simp only [Rand.mk.injEq]
    exact ⟨by simp, by omega⟩

theorem generateUsersAux_length (today : Nat) :
    ∀ (n i : Nat) (r : Rand), (generateUsersAux today n i r).1.length = n := by
  intro n
  induction n with
  | zero => intro i r; rfl
  | succ m ih =>
    intro i r
    rw [generateUsersAux_cons]
    dsimp only
    rw [List.length_cons, ih]

theorem generateProductsAux_length :
    ∀ (n i : Nat) (r : Rand), (generateProductsAux n i r).1.length = n := by
  intro n
  induction n with
  | zero => intro i r; rfl
  | succ m ih =>
    intro i r
    rw [generateProductsAux_cons]
    dsimp only
    rw [List.length_cons, ih]

theorem sample_rand :
    ∀ (k : Nat) (xs : List Nat) (r : Rand),
      (sample k xs r).2.stream = r.stream ∧ r.pos ≤ (sample k xs r).2.pos := by
  intro k
  induction k with
  | zero => intro xs r; exact ⟨rfl, Nat.le_refl _⟩
  | succ m ih =>
    intro xs r
    cases xs with
    | nil => exact ⟨rfl, Nat.le_refl _⟩
    | cons x t =>
      rw [sample_cons]
      dsimp only
      simp only [randBelow_spec]
      obtain ⟨hs, hp⟩ := ih ((x :: t).eraseIdx (r.stream r.pos % (x :: t).length))
        ⟨r.stream, r.pos + 1⟩
      exact ⟨hs, Nat.le_trans (Nat.le_succ _) hp⟩

theorem itemsForOrder_rand (products : List Product) (oid : Nat) :
    ∀ (pids : List Nat) (itemId : Nat) (r : Rand),
      (itemsForOrder products oid pids itemId r).2.2.stream = r.stream ∧
        r.pos ≤ (itemsForOrder products oid pids itemId r).2.2.pos := by
  intro pids
  induction pids with
  | nil => intro itemId r; exact ⟨rfl, Nat.le_refl _⟩
  | cons pid rest ih =>
    intro itemId r
    rw [itemsForOrder_cons]
    dsimp only
    simp only [randInt_spec]
    obtain ⟨hs, hp⟩ := ih (itemId + 1) ⟨r.stream, r.pos + 1⟩
    exact ⟨hs, Nat.le_trans (Nat.le_succ _) hp⟩

theorem generateOrderItemsAux_rand (products : List Product) (productIds : List Nat) :
    ∀ (oids : List Nat) (os : List Order) (itemId : Nat) (r : Rand),
      (generateOrderItemsAux products productIds oids os itemId r).2.2.stream = r.stream ∧
        r.pos ≤ (generateOrderItemsAux products productIds oids os itemId r).2.2.pos := by
  intro oids
  induction oids with
  | nil => intro os itemId r; exact ⟨rfl, Nat.le_refl _⟩
  | cons oid oids ih =>
    intro os itemId r
    rw [generateOrderItemsAux_cons]
    dsimp only
    simp only [randInt_spec, Nat.add_sub_cancel]
    obtain ⟨hs1, hp1⟩ := sample_rand
      (min (1 + r.stream r.pos % 5) productIds.length) productIds ⟨r.stream, r.pos + 1⟩
    obtain ⟨hs2, hp2⟩ := itemsForOrder_rand products oid
      (sample (min (1 + r.stream r.pos % 5) productIds.length) productIds
        ⟨r.stream, r.pos + 1⟩).1 itemId
      (sample (min (1 + r.stream r.pos % 5) productIds.length) productIds
        ⟨r.stream, r.pos + 1⟩).2
    obtain ⟨hs3, hp3⟩ := ih (setTotal os oid (sumSubtotals
      (itemsForOrder products oid
        (sample (min (1 + r.stream r.pos % 5) productIds.length) productIds
          ⟨r.stream, r.pos + 1⟩).1 itemId
        (sample (min (1 + r.stream r.pos % 5) productIds.length) productIds
          ⟨r.stream, r.pos + 1⟩).2).1))
      (itemsForOrder products oid
        (sample (min (1 + r.stream r.pos % 5) productIds.length) productIds
          ⟨r.stream, r.pos + 1⟩).1 itemId
        (sample (min (1 + r.stream r.pos % 5) productIds.length) productIds
          ⟨r.stream, r.pos + 1⟩).2).2.1
      (itemsForOrder products oid
        (sample (min (1 + r.stream r.pos % 5) productIds.length) productIds
          ⟨r.stream, r.pos + 1⟩).1 itemId
        (sample (min (1 + r.stream r.pos % 5) productIds.length) productIds
          ⟨r.stream, r.pos + 1⟩).2).2.2
    refine ⟨by rw [hs3, hs2, hs1], ?_⟩
    have hb : ({ stream := r.stream, pos := r.pos + 1 } : Rand).pos = r.pos + 1 := rfl
    omega

theorem generateOrdersAux_rand {users : List User} {userIds : List Nat} {today : Nat} :
    ∀ {n i : Nat} {r : Rand} {os : List Order} {r' : Rand},
      generateOrdersAux users userIds today n i r = some (os, r') →
      r'.stream = r.stream ∧ r.pos ≤ r'.pos := by
  intro n
  induction n with
  | zero =>
    intro i r os r' h
    simp only [generateOrdersAux, Option.some.injEq, Prod.mk.injEq] at h
    rw [← h.2]
    exact ⟨rfl, Nat.le_refl _⟩
  | succ m ih =>
    intro i r os r' h
    rw [generateOrdersAux] at h
    cases hc : choice userIds r with
    | none => rw [hc] at h; exact absurd h (by simp)
    | some p =>
      obtain ⟨uid, r1⟩ := p
      rw [hc] at h
      simp only [dateBetween_spec, randInt_spec] at h
      cases hrec : generateOrdersAux users userIds today m (i + 1)
          ⟨r1.stream, r1.pos + 1 + 1⟩ with
      | none => rw [hrec] at h; exact absurd h (by simp)
      | some q =>
        obtain ⟨rest, r4⟩ := q
        rw [hrec] at h
        simp only [Option.some.injEq, Prod.mk.injEq] at h
        obtain ⟨hs, hp⟩ := ih hrec
        have hr1 := (choice_eq_some hc).2
        rw [← h.2]
        constructor
        · rw [hs, hr1]
        · rw [hr1] at hp
          simp only at hp hs
          omega

theorem generateReviewsAux_rand {orders : List Order} {ou op : List Nat} {today : Nat} :
    ∀ {n i : Nat} {r : Rand} {rs : List Review} {r' : Rand},
      generateReviewsAux orders ou op today n i r = some (rs, r') →
      r'.stream = r.stream ∧ r.pos ≤ r'.pos := by
  intro n
  induction n with
  | zero =>
    intro i r rs r' h
    simp only [generateReviewsAux, Option.some.injEq, Prod.mk.injEq] at h
    rw [← h.2]
    exact ⟨rfl, Nat.le_refl _⟩
  | succ m ih =>
    intro i r rs r' h
    rw [generateReviewsAux] at h
    cases hc : choice ou r with
    | none => rw [hc] at h; exact absurd h (by simp)
    | some p =>
      obtain ⟨uid, r1⟩ := p
      rw [hc] at h
      dsimp only at h
      cases hcp : choice op r1 with
      | none => rw [hcp] at h; exact absurd h (by simp)
      | some q =>
        obtain ⟨pid, r2⟩ := q
        rw [hcp] at h
        dsimp only at h
        have hr1 := (choice_eq_some hc).2
        have hr2 := (choice_eq_some hcp).2
        by_cases hemp : (orders.filter fun o => o.user_id == uid).isEmpty = true
        · rw [if_pos hemp] at h
          simp only [dateBetween_spec, randInt_spec, Rand.next] at h
          cases hrec : generateReviewsAux orders ou op today m (i + 1)
              ⟨r2.stream, r2.pos + 1 + 1 + 1⟩ with
          | none => rw [hrec] at h; exact absurd h (by simp)
          | some q2 =>
            obtain ⟨rest, r6⟩ := q2
            rw [hrec] at h
            simp only [Option.some.injEq, Prod.mk.injEq] at h
            obtain ⟨hs, hp⟩ := ih hrec
            rw [← h.2]
            rw [hr2, hr1] at hs hp
            simp only at hs hp
            exact ⟨hs, by omega⟩
        · rw [if_neg hemp] at h
          simp only [dateBetween_spec, randInt_spec, Rand.next] at h
          cases hrec : generateReviewsAux orders ou op today m (i + 1)
              ⟨r2.stream, r2.pos + 1 + 1 + 1⟩ with
          | none => rw [hrec] at h; exact absurd h (by simp)
          | some q2 =>
            obtain ⟨rest, r6⟩ := q2
            rw [hrec] at h
            simp only [Option.some.injEq, Prod.mk.injEq] at h
            obtain ⟨hs, hp⟩ := ih hrec
            rw [← h.2]
            rw [hr2, hr1] at hs hp
            simp only at hs hp
            exact ⟨hs, by omega⟩

/-- Successful runs of the order loop exist exactly when there is a user to
draw. -/
theorem generateOrdersAux_some {users : List User} {userIds : List Nat} {today : Nat}
    (hne : userIds ≠ []) :
    ∀ (n i : Nat) (r : Rand), ∃ os r1,
      generateOrdersAux users userIds today n i r = some (os, r1) := by
  intro n
  induction n with
  | zero => intro i r; exact ⟨[], r, rfl⟩
  | succ m ih =>
    intro i r
    cases userIds with
    | nil => exact absurd rfl hne
    | cons x t =>
      rw [generateOrdersAux, choice_cons]
      dsimp only
      simp only [dateBetween_spec, randInt_spec]
      obtain ⟨os, r1, hrec⟩ := ih (i + 1) ⟨r.stream, r.pos + 1 + 1 + 1⟩
      rw [hrec]
      exact ⟨_, _, rfl⟩

/-- Successful runs of the review loop exist exactly when both candidate
pools are non-empty. -/
theorem generateReviewsAux_some {orders : List Order} {ou op : List Nat} {today : Nat}
    (hu : ou ≠ []) (hp : op ≠ []) :
    ∀ (n i : Nat) (r : Rand), ∃ rs r1,
      generateReviewsAux orders ou op today n i r = some (rs, r1) := by
  intro n
  induction n with
  | zero => intro i r; exact ⟨[], r, rfl⟩
  | succ m ih =>
    intro i r
    cases ou with
    | nil => exact absurd rfl hu
    | cons u ut =>
      cases op with
      | nil => exact absurd rfl hp
      | cons v vt =>
        rw [generateReviewsAux, choice_cons]
        dsimp only
        rw [choice_cons]
        dsimp only
        by_cases hemp :
            (orders.filter fun o =>
              o.user_id == (u :: ut).getD (r.stream r.pos % (u :: ut).length) u).isEmpty = true
        · rw [if_pos hemp]
          simp only [dateBetween_spec, randInt_spec, Rand.next]
          obtain ⟨rs, r1, hrec⟩ := ih (i + 1) ⟨r.stream, r.pos + 1 + 1 + 1 + 1 + 1⟩
          rw [hrec]
          exact ⟨_, _, rfl⟩
        · rw [if_neg hemp]
          simp only [dateBetween_spec, randInt_spec, Rand.next]
          obtain ⟨rs, r1, hrec⟩ := ih (i + 1) ⟨r.stream, r.pos + 1 + 1 + 1 + 1 + 1⟩
          rw [hrec]
          exact ⟨_, _, rfl⟩

/-- The first order of one iteration always yields at least one item when
the catalog is non-empty. -/
theorem generateOrderItemsAux_ne_nil (products : List Product) (productIds : List Nat)
    (hne : productIds ≠ []) (oid : Nat) (oids : List Nat) (os : List Order)
    (itemId : Nat) (r : Rand) :
    (generateOrderItemsAux products productIds (oid :: oids) os itemId r).1 ≠ [] := by
  cases productIds with
  | nil => exact absurd rfl hne
  | cons p t =>
    rw [generateOrderItemsAux_cons]
    dsimp only
    have hk : 1 ≤ min (randInt 1 5 r).1 (p :: t).length :=
      Nat.le_min.mpr ⟨one_le_randInt_one_fst 5 r, Nat.succ_le_succ (Nat.zero_le _)⟩
    obtain ⟨j, hj⟩ : ∃ j, min (randInt 1 5 r).1 (p :: t).length = j + 1 :=
      ⟨min (randInt 1 5 r).1 (p :: t).length - 1, by omega⟩
    rw [hj, sample_cons]
    dsimp only
    rw [itemsForOrder_cons]
    dsimp only
    simp

/-- Every run of `generate_data` succeeds: the 100 users make the order draw
possible, the 200 orders and 50 products make both review pools non-empty. -/
theorem generateData_total (today : Nat) (r : Rand) :
    ∃ d r', generateData today r = some (d, r') := by
  unfold generateData
  dsimp only
  have husers : (generateUsers today 100 r).1.length = 100 :=
    generateUsersAux_length today 100 1 r
  have huid : (generateUsers today 100 r).1.map User.id ≠ [] := by
    intro hnil
    have := congrArg List.length hnil
    rw [List.length_map, husers] at this
    exact absurd this (by decide)
  obtain ⟨os, r3, hord⟩ := @generateOrdersAux_some (generateUsers today 100 r).1
    ((generateUsers today 100 r).1.map User.id)
    today huid 200 1 (generateProducts 50 (generateUsers today 100 r).2).2
  rw [show generateOrders (generateUsers today 100 r).1 today 200
      (generateProducts 50 (generateUsers today 100 r).2).2 =
    generateOrdersAux (generateUsers today 100 r).1
      ((generateUsers today 100 r).1.map User.id) today 200 1
      (generateProducts 50 (generateUsers today 100 r).2).2 from rfl, hord]
  dsimp only
  have hoslen : os.length = 200 := by
    have hids := generateOrdersAux_ids hord
    have := congrArg List.length hids
    rw [List.length_map, List.length_range'] at this
    exact this
  have hosne : os ≠ [] := by
    intro hnil
    rw [hnil] at hoslen
    exact absurd hoslen (by decide)
  have hproducts : (generateProducts 50 (generateUsers today 100 r).2).1.length = 50 :=
    generateProductsAux_length 50 1 (generateUsers today 100 r).2
  have hpidne : (generateProducts 50 (generateUsers today 100 r).2).1.map Product.id ≠ [] := by
    intro hnil
    have := congrArg List.length hnil
    rw [List.length_map, hproducts] at this
    exact absurd this (by decide)
  set products := (generateProducts 50 (generateUsers today 100 r).2).1 with hproddef
  have hitems :
      (generateOrderItems os products r3).1 ≠ [] := by
    cases hos : os with
    | nil => exact absurd hos hosne
    | cons o ot =>
      rw [generateOrderItems]
      dsimp only [List.map_cons]
      exact generateOrderItemsAux_ne_nil products (products.map Product.id)
        (by
          intro hnil
          have := congrArg List.length hnil
          rw [List.length_map, hproducts] at this
          exact absurd this (by decide))
        o.id (ot.map Order.id) (o :: ot) 1 r3
  have hordersout :
      (generateOrderItems os products r3).2.1.map Order.user_id = os.map Order.user_id := by
    rw [generateOrderItems]
    exact generateOrderItemsAux_map products (products.map Product.id) Order.user_id
      (fun _ _ => rfl) (os.map Order.id) os 1 r3
  have huser_ne : uniq ((generateOrderItems os products r3).2.1.map Order.user_id) ≠ [] := by
    apply uniq_ne_nil
    rw [hordersout]
    intro hnil
    have := congrArg List.length hnil
    rw [List.length_map, hoslen] at this
    exact absurd this (by decide)
  have hprod_ne : uniq ((generateOrderItems os products r3).1.map OrderItem.product_id) ≠ [] := by
    apply uniq_ne_nil
    intro hnil
    exact hitems (List.map_eq_nil_iff.mp hnil)
  obtain ⟨rs, r5, hrev⟩ := @generateReviewsAux_some
    (generateOrderItems os products r3).2.1
    (uniq ((generateOrderItems os products r3).2.1.map Order.user_id))
    (uniq ((generateOrderItems os products r3).1.map OrderItem.product_id))
    today huser_ne hprod_ne 150 1 (generateOrderItems os products r3).2.2
  rw [show generateReviews (generateUsers today 100 r).1 products
      (generateOrderItems os products r3).2.1 (generateOrderItems os products r3).1
      today 150 (generateOrderItems os products r3).2.2 =
    generateReviewsAux (generateOrderItems os products r3).2.1
      (uniq ((generateOrderItems os products r3).2.1.map Order.user_id))
      (uniq ((generateOrderItems os products r3).1.map OrderItem.product_id))
      today 150 1 (generateOrderItems os products r3).2.2 from rfl, hrev]
  exact ⟨_, _, rfl⟩

/-- What a successful `generate_data` run says about its users table and
final random state: the users are the first stage's output, the stream is
unchanged, and at least the 300 draws of the users stage were consumed. -/
theorem generateData_some_inv {today : Nat} {r : Rand} {d : Dataset} {r' : Rand}
    (h : generateData today r = some (d, r')) :
    d.users = (generateUsers today 100 r).1 ∧
      r'.stream = r.stream ∧ r.pos + 300 ≤ r'.pos := by
  unfold generateData at h
  dsimp only at h
  cases horders : generateOrders (generateUsers today 100 r).1 today 200
      (generateProducts 50 (generateUsers today 100 r).2).2 with
  | none => rw [horders] at h; exact absurd h (by simp)
  | some p =>
    obtain ⟨orders0, r3⟩ := p
    rw [horders] at h
    dsimp only at h
    cases hrev : generateReviews (generateUsers today 100 r).1
        (generateProducts 50 (generateUsers today 100 r).2).1
        (generateOrderItems orders0 (generateProducts 50 (generateUsers today 100 r).2).1 r3).2.1
        (generateOrderItems orders0 (generateProducts 50 (generateUsers today 100 r).2).1 r3).1
        today 150
        (generateOrderItems orders0 (generateProducts 50 (generateUsers today 100 r).2).1 r3).2.2 with
    | none => rw [hrev] at h; exact absurd h (by simp)
    | some q =>
      obtain ⟨reviews, r5⟩ := q
      rw [hrev] at h
      simp only [Option.some.injEq, Prod.mk.injEq] at h
      obtain ⟨hs5, hp5⟩ := generateReviewsAux_rand hrev
      obtain ⟨hs4, hp4⟩ := generateOrderItemsAux_rand
        (generateProducts 50 (generateUsers today 100 r).2).1
        ((generateProducts 50 (generateUsers today 100 r).2).1.map Product.id)
        (orders0.map Order.id) orders0 1 r3
      obtain ⟨hs3, hp3⟩ := generateOrdersAux_rand horders
      have eU2 : (generateUsers today 100 r).2 = ⟨r.stream, r.pos + 3 * 100⟩ := by
        rw [show (generateUsers today 100 r).2 = (generateUsersAux today 100 1 r).2 from rfl,
          generateUsersAux_rand]
      have eP2 : (generateProducts 50 (generateUsers today 100 r).2).2 =
          ⟨r.stream, r.pos + 3 * 100 + 3 * 50⟩ := by
        rw [show (generateProducts 50 (generateUsers today 100 r).2).2 =
          (generateProductsAux 50 1 (generateUsers today 100 r).2).2 from rfl,
          generateProductsAux_rand, eU2]
      have ebs : (generateOrderItems orders0
          (generateProducts 50 (generateUsers today 100 r).2).1 r3).2.2.stream =
          (generateOrderItemsAux (generateProducts 50 (generateUsers today 100 r).2).1
            ((generateProducts 50 (generateUsers today 100 r).2).1.map Product.id)
            (orders0.map Order.id) orders0 1 r3).2.2.stream := rfl
      have ebp : (generateOrderItems orders0
          (generateProducts 50 (generateUsers today 100 r).2).1 r3).2.2.pos =
          (generateOrderItemsAux (generateProducts 50 (generateUsers today 100 r).2).1
            ((generateProducts 50 (generateUsers today 100 r).2).1.map Product.id)
            (orders0.map Order.id) orders0 1 r3).2.2.pos := rfl
      have hp0 : (generateProducts 50 (generateUsers today 100 r).2).2.pos =
          r.pos + 3 * 100 + 3 * 50 := by rw [eP2]
      have hs0 : (generateProducts 50 (generateUsers today 100 r).2).2.stream = r.stream := by
        rw [eP2]
      refine ⟨by rw [← h.1], ?_, ?_⟩
      · rw [← h.2, hs5, ebs, hs4, hs3, hs0]
      · rw [← h.2]
        rw [ebp] at hp5
        omega

/-- Name of the first generated user: the draw right after the first signup
date, i.e. the stream value at position `pos + 1`. -/
theorem generateUsers_head_name (today : Nat) (r : Rand) :
    (generateUsers today 100 r).1.head?.map User.name = some (r.stream (r.pos + 1)) := by
  rw [show generateUsers today 100 r = generateUsersAux today 100 1 r from rfl]
  rw [show (100 : Nat) = 99 + 1 from rfl, generateUsersAux_cons]
  dsimp only
  simp [dateBetween_spec, Rand.next]

/-- C3, as stated, is false: with the process seeded once at import, the
dashboard-style second `generate_data` call in the same process resumes the
advanced stream and produces different tables (exhibited at `today = 1000`
with the identity stream: the two runs disagree already on the first user's
name draw). -/
theorem c3_counterexample :
    ¬ (∀ (today : Nat) (s : Nat → Nat) (d1 : Dataset) (r1 : Rand) (d2 : Dataset)
          (r2 : Rand),
        generateData today (moduleSeed s) = some (d1, r1) →
        generateData today r1 = some (d2, r2) → d1 = d2) := by
  intro hclaim
  obtain ⟨d1, r1, h1⟩ := generateData_total 1000 (moduleSeed idStream)
  obtain ⟨d2, r2, h2⟩ := generateData_total 1000 r1
  have heq := hclaim 1000 idStream d1 r1 d2 r2 h1 h2
  obtain ⟨hu1, hs1, hp1⟩ := generateData_some_inv h1
  obtain ⟨hu2, _, _⟩ := generateData_some_inv h2
  have hn1 : d1.users.head?.map User.name = some (idStream 1) := by
    rw [hu1, generateUsers_head_name]
    rfl
  have hn2 : d2.users.head?.map User.name = some (r1.stream (r1.pos + 1)) := by
    rw [hu2, generateUsers_head_name]
  rw [heq, hn2] at hn1
  have hval : r1.stream (r1.pos + 1) = idStream 1 := Option.some.inj hn1
  rw [hs1] at hval
  have hpos : r1.pos + 1 = 1 := hval
  have hp1n : 0 + 300 ≤ r1.pos := hp1
  omega

/-- C3 (amended): generation is a deterministic function of the seeded
random state, so two fresh processes seeded identically (each one runs the
module-level `random.seed(42)` / `Faker.seed(42)` at import) emit identical
tables; only the same-process rerun, which does not reseed, may differ. -/
theorem c3_fresh_runs_deterministic (today : Nat) (s1 s2 : Nat → Nat) (h : s1 = s2) :
    generateData today (moduleSeed s1) = generateData today (moduleSeed s2) := by
  rw [h]

/-- Witness for C3's amended statement at a concrete seed. -/
theorem c3_witness :
    generateData 1000 (moduleSeed idStream) = generateData 1000 (moduleSeed idStream) :=
  c3_fresh_runs_deterministic 1000 idStream idStream rfl

/-- Witness for C4: a full concrete run exists (every run succeeds) and its
orders satisfy the total-amount equation. -/
theorem c4_witness :
    ∃ d r', generateData 1000 (moduleSeed idStream) = some (d, r') ∧
      ∀ o ∈ d.orders, o.total_amount =
        sumSubtotals (d.order_items.filter fun it => it.order_id == o.id) := by
  obtain ⟨d, r', h⟩ := generateData_total 1000 (moduleSeed idStream)
  exact ⟨d, r', h, c4_order_totals_match_items h⟩

/-! ## C2, C5, C6, C7: loader and query layer -/

/-- C2 is a code bug: with a complete prior store on disk and `reviews.csv`
missing, `load_to_sqlite` fails and leaves the four already-committed tables
on disk — the result is neither the prior complete store (which was removed
up front) nor no store at all, but a half-loaded store. -/
theorem c2_failure_leaves_half_loaded_store :
    loadToSqlite (some c2Prior) c2Files = (some c2Half, Outcome.failure) ∧
    some c2Half ≠ some c2Prior ∧ some c2Half ≠ (none : Option Store) := by
  decide

/-- C5 is a code bug: the loading connection never turns foreign-key
enforcement on, so flat files with an order item referencing the absent
product 999 load successfully and referential integrity fails in the
resulting store. -/
theorem c5_dangling_fk_load_succeeds :
    loadToSqlite none c5Files = (some c5Loaded, Outcome.success) ∧
    refIntegrity c5Loaded = false := by
  decide

/-- C6: `load_to_sqlite` is idempotent — the store it leaves depends only on
the flat files, because any existing database file is removed before loading
begins, so a second run from the first run's end state reproduces it exactly
(same rows in all five tables, no accumulation). -/
theorem c6_load_idempotent (prior : Option Store) (files : Files) :
    loadToSqlite ((loadToSqlite prior files).1) files = loadToSqlite prior files :=
  rfl

/-- C7, as stated, is false: revenue ties are returned with equal
`total_revenue` in consecutive rows (`ORDER BY ... DESC` is not strict), as
the two equal-revenue products of `c7Store` show. -/
theorem c7_counterexample :
    ¬ (strictlyDescRevenue (getProductSalesSummary c7Store) = true) := by
  decide

/-- C7 (amended): for every store, the product-revenue query returns at most
10 rows and consecutive `total_revenue` values are non-increasing (descending
with ties allowed). -/
theorem c7_at_most_ten_nonincreasing (s : Store) :
    (getProductSalesSummary s).length ≤ 10 ∧
    List.Sorted revGe (getProductSalesSummary s) := by
  constructor
  · rw [getProductSalesSummary, List.length_take]
    exact Nat.min_le_left _ _
  · have hsorted : List.Sorted revGe (List.insertionSort revGe (productSalesRows s)) :=
      List.sorted_insertionSort revGe (productSalesRows s)
    exact List.Pairwise.sublist (List.take_sublist 10 _) hsorted

end ECommerce
